import Mathlib

/-!
Verification of the transaction submission/confirmation engine and the
event-log decoder of the dydx-perpetual client.

The embedding follows the TypeScript sources:
  * `src/src/Perpetual.ts` (the `Contracts` class: `_send`, `send`,
    `estimateGas`, gas accounting);
  * `src/unnamed/part_000` (the `Logs` class: `parseLogs`, `parseLog`,
    `parseLogWithContract`, `parseArgs`, `parseValue`, `parseTuple`,
    `parseBalance`, `parseIndex`, `parseOrderFlags`, `contractsByAddress`);
  * `src/src/lib/types.ts` (`ConfirmationType`, `Balance`, `BaseValue`,
    `Fee`, `Price`).

JavaScript numbers that hold transaction data are modelled as `Nat`/`Int`
(`NaN` as `none` of an `Option` where the code can produce it), the
floating-point gas multiplier as `ℚ`, promises as `Option (Except e a)`
(`none` = never settles), and thrown errors as `Except`.
-/

namespace DydxPerpetual

instance {ε α : Type} [DecidableEq ε] [DecidableEq α] : DecidableEq (Except ε α) :=
  fun a b =>
    match a, b with
    | .error e, .error f =>
      if h : e = f then .isTrue (by rw [h]) else .isFalse (by intro hc; cases hc; exact h rfl)
    | .ok x, .ok y =>
      if h : x = y then .isTrue (by rw [h]) else .isFalse (by intro hc; cases hc; exact h rfl)
    | .error _, .ok _ => .isFalse (by intro hc; cases hc)
    | .ok _, .error _ => .isFalse (by intro hc; cases hc)

/-! ## Transaction coordinator (`Contracts` of `src/src/Perpetual.ts`) -/

/-- `enum OUTCOMES { INITIAL = 0, RESOLVED = 1, REJECTED = 2 }`. -/
inductive Outcome where
  | INITIAL
  | RESOLVED
  | REJECTED
deriving DecidableEq, Repr

/-- `enum ConfirmationType { Hash = 0, Confirmed = 1, Both = 2, Simulate = 3 }`
from `src/src/lib/types.ts`. -/
inductive ConfirmationType where
  | Hash
  | Confirmed
  | Both
  | Simulate
deriving DecidableEq, Repr

/-- A transaction receipt as far as the coordinator reads it: an identity and
the `gasUsed` the peer reports (`TransactionReceipt` of web3). -/
structure Receipt where
  receiptId : Nat
  gasUsed : Nat
deriving DecidableEq, Repr

/-- One signal of the underlying transmission (`PromiEvent`): the events
`error`, `transactionHash`, `confirmation(confNumber, receipt)` and
`receipt` that `_send` listens for. Errors are named by a `Nat`. -/
inductive Signal where
  | errorSig (e : Nat)
  | txHashSig (h : Nat)
  | confirmationSig (confNumber : Nat) (receipt : Receipt)
  | receiptSig (receipt : Receipt)
deriving DecidableEq, Repr

/-- The mutable state of `_send`'s two one-shot races: the `hashOutcome` and
`confirmationOutcome` flags, the settled value of `hashPromise` and of
`confirmationPromise` (`none` while pending), and whether `promi.off()`
has detached every listener. -/
structure RaceState where
  hashOutcome : Outcome
  confirmationOutcome : Outcome
  hashResult : Option (Except Nat Nat)
  confirmationResult : Option (Except Nat Receipt)
  off : Bool
deriving DecidableEq, Repr

/-- A promise settles only once: later `resolve`/`reject` calls are ignored. -/
def settleOnce {α : Type} (o : Option α) (v : α) : Option α :=
  match o with
  | some w => some w
  | none => some v

def initialRaceState : RaceState :=
  { hashOutcome := .INITIAL
    confirmationOutcome := .INITIAL
    hashResult := none
    confirmationResult := none
    off := false }

/-- The hash listeners are registered iff the mode is in
`[ConfirmationType.Hash, ConfirmationType.Both]`. -/
def hashArmed (ct : ConfirmationType) : Prop :=
  ct = .Hash ∨ ct = .Both

instance : DecidablePred hashArmed := fun ct => by
  unfold hashArmed; infer_instance

/-- The confirmation listeners are registered iff the mode is in
`[ConfirmationType.Confirmed, ConfirmationType.Both]`; in `Both` mode
`_send` registers them only after `await hashPromise` succeeded, so they
observe a signal only once the hash race has resolved. -/
def confirmationArmed (ct : ConfirmationType) (st : RaceState) : Prop :=
  ct = .Confirmed ∨ (ct = .Both ∧ st.hashOutcome = .RESOLVED)

instance (ct : ConfirmationType) (st : RaceState) :
    Decidable (confirmationArmed ct st) := by
  unfold confirmationArmed; infer_instance

/-- Delivery of one transmission signal to the listeners `_send` registered
(`src/src/Perpetual.ts` lines 399-475). After `off()` no listener fires.
For an `error` signal the hash listener is registered first and runs first;
the confirmation error listener then re-reads the updated `hashOutcome`,
exactly as the closures in the source do. The `receipt` listener (used when
`confirmations` is falsy, i.e. `0`) has no `INITIAL` guard in the source,
and the `confirmation` listener fires only when `confNumber >= confirmations`. -/
def dispatch (ct : ConfirmationType) (confirmations : Nat)
    (st : RaceState) (sig : Signal) : RaceState :=
  if st.off then st else
  match sig with
  | .errorSig e =>
    let st1 :=
      if hashArmed ct ∧ st.hashOutcome = .INITIAL then
        { st with hashOutcome := .REJECTED
                  hashResult := settleOnce st.hashResult (.error e)
                  off := true }
      else st
    if confirmationArmed ct st ∧ st1.confirmationOutcome = .INITIAL ∧
        (ct = .Confirmed ∨ st1.hashOutcome = .RESOLVED) then
      { st1 with confirmationOutcome := .REJECTED
                 confirmationResult := settleOnce st1.confirmationResult (.error e)
                 off := true }
    else st1
  | .txHashSig h =>
    if hashArmed ct ∧ st.hashOutcome = .INITIAL then
      { st with hashOutcome := .RESOLVED
                hashResult := settleOnce st.hashResult (.ok h)
                off := st.off || decide (ct ≠ .Both) }
    else st
  | .confirmationSig confNumber receipt =>
    if confirmationArmed ct st ∧ confirmations ≠ 0 ∧
        confirmations ≤ confNumber ∧ st.confirmationOutcome = .INITIAL then
      { st with confirmationOutcome := .RESOLVED
                confirmationResult := settleOnce st.confirmationResult (.ok receipt)
                off := true }
    else st
  | .receiptSig receipt =>
    if confirmationArmed ct st ∧ confirmations = 0 then
      { st with confirmationOutcome := .RESOLVED
                confirmationResult := settleOnce st.confirmationResult (.ok receipt)
                off := true }
    else st

/-- The race state after the transmission has emitted `sigs` in order. -/
def processSignals (ct : ConfirmationType) (confirmations : Nat)
    (sigs : List Signal) : RaceState :=
  sigs.foldl (dispatch ct confirmations) initialRaceState

/-- The errors `_send` can throw. -/
inductive SendErr where
  /-- `Invalid confirmation type: ...` -/
  | invalidConfirmationType
  /-- `estimateGas` rethrows the remote estimation error with
  `error.transactionData` attached (the error id is kept). -/
  | estimationFailed (e : Nat)
  /-- A race's promise rejected with the transport error `e`. -/
  | transportError (e : Nat)
deriving DecidableEq, Repr

/-- The value `_send` resolves with, as the optional-field record the caller
receives (`TxResult` of `src/src/lib/types.ts`): only the fields the chosen
confirmation mode writes are present.
`confirmation` holds the deferred confirmation promise of `Both` mode: its
inner value is that promise's eventual outcome (`none` = never settles). -/
structure SendResult where
  gasEstimate : Option Nat := none
  gas : Option Int := none
  transactionHash : Option Nat := none
  receipt : Option Receipt := none
  confirmation : Option (Option (Except Nat Receipt)) := none
deriving DecidableEq, Repr

/-- How a call of `_send` ends: resolves with a value, rejects with an error,
or never settles because an awaited promise never settles. -/
inductive SendOutcome where
  | ok (r : SendResult)
  | err (e : SendErr)
  | pending
deriving DecidableEq, Repr

/-- The options `_send` destructures. `confirmationType` is `none` when the
value is outside the `ConfirmationType` enumeration, which makes
`Object.values(ConfirmationType).includes(confirmationType)` false.
A given `gas` of `0` is falsy in `!txOptions.gas`, like no gas at all. -/
structure SendOpts where
  gas : Option Int := none
  gasMultiplier : ℚ := 3 / 2
  confirmations : Nat := 0
  confirmationType : Option ConfirmationType := some .Confirmed
deriving Repr

/-- The remote peer of one submission: what `method.estimateGas` would return
and the signals `method.send`'s `PromiEvent` would emit, in order. -/
structure Transport where
  estimateGasResult : Except Nat Nat
  signals : List Signal
deriving Repr

/-- Observable calls of one `_send`: how often `method.estimateGas` and
`method.send` ran, and the `gas` option the broadcast was given. -/
structure SendTrace where
  estimateCalls : Nat
  broadcastCalls : Nat
  broadcastGas : Option Int
deriving DecidableEq, Repr

/-- `txOptions.gas = Math.floor(gasEstimate * gasMultiplier)`. -/
def gasFromEstimate (gasEstimate : Nat) (gasMultiplier : ℚ) : Int :=
  Int.floor ((gasEstimate : ℚ) * gasMultiplier)

/-- The value `_send` settles on once the call was broadcast
(`src/src/Perpetual.ts` lines 399-488): the mode-dependent awaiting of the
two races. `Simulate` never reaches this point (`_send` returned before the
broadcast); that arm is `pending` only for totality. -/
def broadcastOutcome (ct : ConfirmationType) (confirmations : Nat)
    (signals : List Signal) : SendOutcome :=
  let st := processSignals ct confirmations signals
  match ct with
  | .Hash =>
    match st.hashResult with
    | none => .pending
    | some (.error e) => .err (.transportError e)
    | some (.ok h) => .ok { transactionHash := some h }
  | .Confirmed =>
    match st.confirmationResult with
    | none => .pending
    | some (.error e) => .err (.transportError e)
    | some (.ok receipt) => .ok { receipt := some receipt }
  | .Both =>
    match st.hashResult with
    | none => .pending
    | some (.error e) => .err (.transportError e)
    | some (.ok h) =>
      .ok { transactionHash := some h, confirmation := some st.confirmationResult }
  | .Simulate => .pending

/-- `Contracts._send` (`src/src/Perpetual.ts` lines 371-489), together with
the calls it makes on the transport. An invalid confirmation type throws
before any network call; `Simulate` mode, or a falsy explicit gas limit,
estimates gas first and multiplies by `gasMultiplier`; `Simulate` returns
`{ gasEstimate, gas }` without broadcasting; every other mode broadcasts and
awaits its races. -/
def _send (opts : SendOpts) (tr : Transport) : SendOutcome × SendTrace :=
  match opts.confirmationType with
  | none => (.err .invalidConfirmationType, ⟨0, 0, none⟩)
  | some ct =>
    if ct = .Simulate ∨ opts.gas.getD 0 = 0 then
      match tr.estimateGasResult with
      | .error e => (.err (.estimationFailed e), ⟨1, 0, none⟩)
      | .ok gasEstimate =>
        let g : Int := gasFromEstimate gasEstimate opts.gasMultiplier
        if ct = .Simulate then
          (.ok { gasEstimate := some gasEstimate, gas := some g }, ⟨1, 0, none⟩)
        else
          (broadcastOutcome ct opts.confirmations tr.signals, ⟨1, 1, some g⟩)
    else
      (broadcastOutcome ct opts.confirmations tr.signals, ⟨0, 1, opts.gas⟩)

/-- The gas bookkeeping of the `Contracts` class: `_cumulativeGasUsed`
(`none` models `NaN`, which adding `undefined` produces) and
`_gasUsedByFunction`. -/
structure GasState where
  cumulativeGasUsed : Option Nat
  gasUsedByFunction : List (String × Option Nat)
deriving DecidableEq, Repr

def initialGasState : GasState := { cumulativeGasUsed := some 0, gasUsedByFunction := [] }

/-- `Contracts.resetGasUsed` (`src/src/Perpetual.ts` lines 268-271). -/
def resetGasUsed (_st : GasState) : GasState :=
  { cumulativeGasUsed := some 0, gasUsedByFunction := [] }

/-- `Contracts.getCumulativeGasUsed`. -/
def getCumulativeGasUsed (st : GasState) : Option Nat :=
  st.cumulativeGasUsed

/-- `this._cumulativeGasUsed += gasUsed` where either side may be `NaN`
(`none`): any `NaN` poisons the total. -/
def accrueGas (cumulative gasUsed : Option Nat) : Option Nat :=
  match cumulative, gasUsed with
  | some c, some g => some (c + g)
  | _, _ => none

/-- `(result as TxResult).gasUsed`: defined only when the result is a receipt
(`Confirmed` mode); reading it off the `{ transactionHash, confirmation }`
record of `Both` mode gives `undefined` (`none`). -/
def SendResult.gasUsedField (r : SendResult) : Option Nat :=
  r.receipt.map Receipt.gasUsed

/-- `Contracts.send` (`src/src/Perpetual.ts` lines 320-345): runs `_send`,
then — when the mode is `Confirmed` or `Both`, the method's parent contract
is found in `contractsList` and is not a test contract — adds the result's
`gasUsed` to `_cumulativeGasUsed` (and, under the diagnostic flag, records it
per method name). The value `send` returns is exactly `_send`'s. -/
def send (opts : SendOpts) (tr : Transport)
    (contractFound : Bool) (isTest : Bool)
    (debugFlag : Bool) (methodName : String)
    (st : GasState) : (SendOutcome × SendTrace) × GasState :=
  let out := _send opts tr
  match out.1 with
  | .ok r =>
    if (opts.confirmationType = some .Confirmed ∨ opts.confirmationType = some .Both)
        ∧ contractFound = true ∧ isTest = false then
      (out,
        { cumulativeGasUsed := accrueGas st.cumulativeGasUsed r.gasUsedField
          gasUsedByFunction :=
            if debugFlag then st.gasUsedByFunction ++ [(methodName, r.gasUsedField)]
            else st.gasUsedByFunction })
    else (out, st)
  | _ => (out, st)

/-! ## Invariants of the two races -/

/-- The states the listener machinery can actually be in: a settled
confirmation race always detached the listeners; a rejected hash race always
detached them; `off` has one of its three causes; a race that is not armed
stays `INITIAL`; a pending race's promise is unsettled. -/
def RaceInv (ct : ConfirmationType) (st : RaceState) : Prop :=
  (st.confirmationOutcome ≠ .INITIAL → st.off = true) ∧
  (st.hashOutcome = .REJECTED → st.off = true) ∧
  (st.off = true →
    st.hashOutcome = .REJECTED ∨ (st.hashOutcome = .RESOLVED ∧ ct ≠ .Both) ∨
    st.confirmationOutcome ≠ .INITIAL) ∧
  (¬ hashArmed ct → st.hashOutcome = .INITIAL) ∧
  ((ct = .Hash ∨ ct = .Simulate) → st.confirmationOutcome = .INITIAL) ∧
  (st.confirmationOutcome = .INITIAL → st.confirmationResult = none) ∧
  (st.hashOutcome = .INITIAL → st.hashResult = none)

theorem raceInv_initial (ct : ConfirmationType) : RaceInv ct initialRaceState := by
  simp [RaceInv, initialRaceState]

theorem dispatch_of_off (ct : ConfirmationType) (c : Nat) (st : RaceState)
    (sig : Signal) (h : st.off = true) : dispatch ct c st sig = st := by
  cases sig <;> simp [dispatch, h]

theorem raceInv_dispatch (ct : ConfirmationType) (c : Nat) (st : RaceState)
    (sig : Signal) (h : RaceInv ct st) : RaceInv ct (dispatch ct c st sig) := by
  obtain ⟨ho, co, hr, cr, off⟩ := st
  obtain ⟨h1, h2, h3, h4, h5, h6, h7⟩ := h
  cases sig <;> cases ct <;> cases ho <;> cases co <;> cases off <;>
    simp_all [RaceInv, dispatch, hashArmed, confirmationArmed, settleOnce] <;>
    split_ifs <;> simp_all

theorem raceInv_processSignals (ct : ConfirmationType) (c : Nat)
    (sigs : List Signal) : RaceInv ct (processSignals ct c sigs) := by
  suffices h : ∀ st, RaceInv ct st → RaceInv ct (sigs.foldl (dispatch ct c) st) from
    h _ (raceInv_initial ct)
  induction sigs with
  | nil => intro st hst; exact hst
  | cons s rest ih =>
    intro st hst
    exact ih _ (raceInv_dispatch ct c st s hst)

/-- A single signal never changes a hash race that has left `INITIAL`: both
hash listeners are guarded by `hashOutcome === OUTCOMES.INITIAL` and the
confirmation listeners do not touch the hash race. Holds for every state. -/
theorem dispatch_hash_stable (ct : ConfirmationType) (c : Nat) (st : RaceState)
    (sig : Signal) (h : st.hashOutcome ≠ .INITIAL) :
    (dispatch ct c st sig).hashOutcome = st.hashOutcome ∧
    (dispatch ct c st sig).hashResult = st.hashResult := by
  obtain ⟨ho, co, hr, cr, off⟩ := st
  cases sig <;> cases ho <;> cases off <;>
    simp_all [dispatch, hashArmed, confirmationArmed, settleOnce] <;>
    split_ifs <;> simp_all

/-- A single signal is entirely ignored once the confirmation race has left
`INITIAL`, because the listeners were detached by `off()`. -/
theorem dispatch_confirmation_stable (ct : ConfirmationType) (c : Nat)
    (st : RaceState) (sig : Signal) (hinv : RaceInv ct st)
    (h : st.confirmationOutcome ≠ .INITIAL) : dispatch ct c st sig = st :=
  dispatch_of_off ct c st sig (hinv.1 h)

theorem foldl_hash_stable (ct : ConfirmationType) (c : Nat) (rest : List Signal) :
    ∀ st : RaceState, st.hashOutcome ≠ .INITIAL →
      (rest.foldl (dispatch ct c) st).hashOutcome = st.hashOutcome ∧
      (rest.foldl (dispatch ct c) st).hashResult = st.hashResult := by
  induction rest with
  | nil => intro st _; exact ⟨rfl, rfl⟩
  | cons s rest ih =>
    intro st h
    obtain ⟨e1, e2⟩ := dispatch_hash_stable ct c st s h
    obtain ⟨e3, e4⟩ := ih (dispatch ct c st s) (by rw [e1]; exact h)
    exact ⟨by rw [List.foldl_cons, e3, e1], by rw [List.foldl_cons, e4, e2]⟩

theorem foldl_confirmation_stable (ct : ConfirmationType) (c : Nat)
    (rest : List Signal) :
    ∀ st : RaceState, RaceInv ct st → st.confirmationOutcome ≠ .INITIAL →
      rest.foldl (dispatch ct c) st = st := by
  induction rest with
  | nil => intro st _ _; rfl
  | cons s rest ih =>
    intro st hinv h
    rw [List.foldl_cons, dispatch_confirmation_stable ct c st s hinv h]
    exact ih st hinv h

/-- C1. Each race of `_send` settles at most once: however the transport
continues after a race has left `INITIAL` (duplicate hashes, late errors,
extra confirmations, extra receipts), the settled race is unchanged — for the
hash race its outcome and its exposed promise value, for the confirmation
race the whole listener state. In particular an error signal arriving after
the confirmation race resolved with a receipt leaves its exposed result equal
to that receipt. -/
theorem c1_races_settle_at_most_once (ct : ConfirmationType) (confirmations : Nat)
    (sigs rest : List Signal) :
    ((processSignals ct confirmations sigs).hashOutcome ≠ .INITIAL →
      (processSignals ct confirmations (sigs ++ rest)).hashOutcome =
        (processSignals ct confirmations sigs).hashOutcome ∧
      (processSignals ct confirmations (sigs ++ rest)).hashResult =
        (processSignals ct confirmations sigs).hashResult) ∧
    ((processSignals ct confirmations sigs).confirmationOutcome ≠ .INITIAL →
      processSignals ct confirmations (sigs ++ rest) =
        processSignals ct confirmations sigs) ∧
    (∀ (receipt : Receipt) (e : Nat),
      (processSignals ct confirmations sigs).confirmationResult = some (.ok receipt) →
      (processSignals ct confirmations (sigs ++ [.errorSig e])).confirmationResult =
        some (.ok receipt)) := by
  have happ : ∀ more : List Signal, processSignals ct confirmations (sigs ++ more) =
      more.foldl (dispatch ct confirmations) (processSignals ct confirmations sigs) := by
    intro more
    simp [processSignals, List.foldl_append]
  have hinv := raceInv_processSignals ct confirmations sigs
  refine ⟨?_, ?_, ?_⟩
  · intro h
    rw [happ rest]
    exact foldl_hash_stable ct confirmations rest _ h
  · intro h
    rw [happ rest]
    exact foldl_confirmation_stable ct confirmations rest _ hinv h
  · intro receipt e h
    have hco : (processSignals ct confirmations sigs).confirmationOutcome ≠ .INITIAL := by
      intro hc
      rw [hinv.2.2.2.2.2.1 hc] at h
      exact Option.noConfusion h
    rw [happ [.errorSig e],
      foldl_confirmation_stable ct confirmations [.errorSig e] _ hinv hco]
    exact h

theorem dispatch_error_rejects_iff (ct : ConfirmationType) (c : Nat)
    (st : RaceState) (e : Nat) (hinv : RaceInv ct st) :
    (st.confirmationOutcome = .INITIAL ∧
      (dispatch ct c st (.errorSig e)).confirmationOutcome = .REJECTED) ↔
    (st.confirmationOutcome = .INITIAL ∧
      (ct = .Confirmed ∨ (ct = .Both ∧ st.hashOutcome = .RESOLVED))) := by
  obtain ⟨ho, co, hr, cr, off⟩ := st
  obtain ⟨h1, h2, h3, h4, h5, h6, h7⟩ := hinv
  cases ct <;> cases ho <;> cases co <;> cases off <;>
    simp_all [dispatch, hashArmed, confirmationArmed, settleOnce]

theorem dispatch_error_rejecting (ct : ConfirmationType) (c : Nat)
    (st : RaceState) (e : Nat) (hinv : RaceInv ct st)
    (harm : ct = .Confirmed ∨ (ct = .Both ∧ st.hashOutcome = .RESOLVED))
    (hco : st.confirmationOutcome = .INITIAL) :
    (dispatch ct c st (.errorSig e)).confirmationOutcome = .REJECTED ∧
    (dispatch ct c st (.errorSig e)).confirmationResult = some (.error e) ∧
    (dispatch ct c st (.errorSig e)).hashOutcome = st.hashOutcome ∧
    (dispatch ct c st (.errorSig e)).hashResult = st.hashResult := by
  obtain ⟨ho, co, hr, cr, off⟩ := st
  obtain ⟨h1, h2, h3, h4, h5, h6, h7⟩ := hinv
  cases ct <;> cases ho <;> cases co <;> cases off <;>
    simp_all [dispatch, hashArmed, confirmationArmed, settleOnce]

/-- C3. An error signal rejects the confirmation race iff that race is still
pending and either the mode is `Confirmed`, or the mode is `Both` and the
hash race has already resolved. When it rejects, the race's exposed result is
that error while the hash race keeps its outcome and its hash; consequently
in `Both` mode an error before hash resolution never rejects the confirmation
race (the left-to-right direction forces `hashOutcome = RESOLVED`), and an
error after it rejects the confirmation race while the hash race stays
resolved. -/
theorem c3_confirmation_error_rule (ct : ConfirmationType) (confirmations : Nat)
    (sigs : List Signal) (e : Nat) :
    (((processSignals ct confirmations sigs).confirmationOutcome = .INITIAL ∧
      (processSignals ct confirmations (sigs ++ [.errorSig e])).confirmationOutcome =
        .REJECTED) ↔
     ((processSignals ct confirmations sigs).confirmationOutcome = .INITIAL ∧
      (ct = .Confirmed ∨ (ct = .Both ∧
        (processSignals ct confirmations sigs).hashOutcome = .RESOLVED)))) ∧
    ((ct = .Confirmed ∨ (ct = .Both ∧
        (processSignals ct confirmations sigs).hashOutcome = .RESOLVED)) →
      (processSignals ct confirmations sigs).confirmationOutcome = .INITIAL →
      (processSignals ct confirmations (sigs ++ [.errorSig e])).confirmationOutcome =
        .REJECTED ∧
      (processSignals ct confirmations (sigs ++ [.errorSig e])).confirmationResult =
        some (.error e) ∧
      (processSignals ct confirmations (sigs ++ [.errorSig e])).hashOutcome =
        (processSignals ct confirmations sigs).hashOutcome ∧
      (processSignals ct confirmations (sigs ++ [.errorSig e])).hashResult =
        (processSignals ct confirmations sigs).hashResult) := by
  have happ : processSignals ct confirmations (sigs ++ [.errorSig e]) =
      dispatch ct confirmations (processSignals ct confirmations sigs) (.errorSig e) := by
    simp [processSignals, List.foldl_append]
  have hinv := raceInv_processSignals ct confirmations sigs
  rw [happ]
  exact ⟨dispatch_error_rejects_iff ct confirmations _ e hinv,
    fun harm hco => dispatch_error_rejecting ct confirmations _ e hinv harm hco⟩

/-! ## The shape of the value `_send` resolves with -/

/-- Which optional fields of a `SendResult` are present:
`(gasEstimate, gas, transactionHash, receipt, confirmation)`. -/
def fieldMask (r : SendResult) : Bool × Bool × Bool × Bool × Bool :=
  (r.gasEstimate.isSome, r.gas.isSome, r.transactionHash.isSome,
    r.receipt.isSome, r.confirmation.isSome)

/-- The field set of each mode's `TransactionOutcome` union variant:
`Hash → {transactionHash}`, `Confirmed → {receipt}`,
`Both → {transactionHash, confirmation}`, `Simulate → {gasEstimate, gas}`. -/
def modeFieldMask (ct : ConfirmationType) : Bool × Bool × Bool × Bool × Bool :=
  match ct with
  | .Hash => (false, false, true, false, false)
  | .Confirmed => (false, false, false, true, false)
  | .Both => (false, false, true, false, true)
  | .Simulate => (true, true, false, false, false)

theorem broadcastOutcome_fields (ct : ConfirmationType) (c : Nat)
    (signals : List Signal) (r : SendResult)
    (h : broadcastOutcome ct c signals = .ok r) :
    fieldMask r = modeFieldMask ct := by
  cases ct <;> simp only [broadcastOutcome] at h
  case Simulate => exact SendOutcome.noConfusion h
  all_goals
    split at h <;> first
      | exact SendOutcome.noConfusion h
      | (simp only [SendOutcome.ok.injEq] at h; subst h; rfl)

/-- C2. For each of the four confirmation modes, a value `_send` resolves
with has exactly the field set of that mode's variant — never more fields of
the union, never fewer. -/
theorem c2_outcome_fields_by_mode (opts : SendOpts) (tr : Transport)
    (ct : ConfirmationType) (r : SendResult)
    (hct : opts.confirmationType = some ct)
    (hok : (_send opts tr).1 = .ok r) :
    fieldMask r = modeFieldMask ct := by
  obtain ⟨estRes, signals⟩ := tr
  rcases estRes with e | est <;> simp only [_send, hct] at hok
  · split at hok
    · exact SendOutcome.noConfusion hok
    · exact broadcastOutcome_fields ct opts.confirmations signals r hok
  · split at hok
    · split at hok
      · next hsim =>
          subst hsim
          simp only [SendOutcome.ok.injEq] at hok
          rw [← hok]
          rfl
      · exact broadcastOutcome_fields ct opts.confirmations signals r hok
    · exact broadcastOutcome_fields ct opts.confirmations signals r hok

/-- Witness for C2 at a concrete input: a `Confirmed`-mode submission whose
transport reports a single receipt resolves with exactly the receipt field. -/
theorem c2_outcome_fields_witness :
    fieldMask { receipt := some ⟨1, 21000⟩ } = modeFieldMask .Confirmed :=
  c2_outcome_fields_by_mode
    { gas := some 21000, confirmationType := some .Confirmed }
    ⟨.ok 100, [.receiptSig ⟨1, 21000⟩]⟩ .Confirmed
    { receipt := some ⟨1, 21000⟩ } rfl rfl

/-- C4. In `Simulate` mode `_send` performs exactly one gas-estimation call
and zero broadcast calls, and (when estimation succeeds) resolves with
`{ gasEstimate, gas }` where `gas = floor(gasEstimate * gasMultiplier)`;
in every other mode, when no explicit gas limit was given, the broadcast is
performed with that same `gas` value. -/
theorem c4_simulate_only_and_gas_formula (opts : SendOpts) (tr : Transport) :
    (opts.confirmationType = some .Simulate →
      (_send opts tr).2.estimateCalls = 1 ∧
      (_send opts tr).2.broadcastCalls = 0 ∧
      (∀ est, tr.estimateGasResult = .ok est →
        (_send opts tr).1 =
          .ok { gasEstimate := some est
                gas := some (gasFromEstimate est opts.gasMultiplier) })) ∧
    (∀ ct, opts.confirmationType = some ct → ct ≠ .Simulate → opts.gas = none →
      ∀ est, tr.estimateGasResult = .ok est →
      (_send opts tr).2 =
        ⟨1, 1, some (gasFromEstimate est opts.gasMultiplier)⟩) := by
  obtain ⟨estRes, signals⟩ := tr
  constructor
  · intro hct
    refine ⟨?_, ?_, ?_⟩
    · rcases estRes with e | est <;> simp [_send, hct]
    · rcases estRes with e | est <;> simp [_send, hct]
    · intro est hest
      simp only [Transport.estimateGasResult] at hest
      subst hest
      simp [_send, hct]
  · intro ct hct hsim hgas est hest
    simp only [Transport.estimateGasResult] at hest
    subst hest
    simp [_send, hct, hsim, hgas]

/-- C9. A successfully confirmed (non-simulated) transaction sent through a
found, non-test contract adds the result's `gasUsed` to the process-wide
total; the value `send` returns is `_send`'s, carrying no total and
independent of the gas state; and two sequential `Confirmed` submissions
whose receipts report `gasUsed` 21000 and 45000, started from a reset total,
leave it at exactly 66000, while `resetGasUsed` brings it back to `0`. -/
theorem c9_cumulative_gas (opts : SendOpts) (tr : Transport) (st : GasState)
    (contractFound isTest debugFlag : Bool) (methodName : String) :
    ((send opts tr contractFound isTest debugFlag methodName st).1 = _send opts tr) ∧
    (∀ r : SendResult, opts.confirmationType = some .Confirmed →
      (_send opts tr).1 = .ok r →
      (send opts tr true false debugFlag methodName st).2.cumulativeGasUsed =
        accrueGas st.cumulativeGasUsed r.gasUsedField) ∧
    (getCumulativeGasUsed
      (send { gas := some 1, confirmationType := some .Confirmed }
        ⟨.ok 0, [.receiptSig ⟨2, 45000⟩]⟩ true false false ""
        (send { gas := some 1, confirmationType := some .Confirmed }
          ⟨.ok 0, [.receiptSig ⟨1, 21000⟩]⟩ true false false ""
          initialGasState).2).2 = some 66000 ∧
     getCumulativeGasUsed (resetGasUsed
      (send { gas := some 1, confirmationType := some .Confirmed }
        ⟨.ok 0, [.receiptSig ⟨2, 45000⟩]⟩ true false false ""
        (send { gas := some 1, confirmationType := some .Confirmed }
          ⟨.ok 0, [.receiptSig ⟨1, 21000⟩]⟩ true false false ""
          initialGasState).2).2) = some 0) := by
  refine ⟨?_, ?_, by decide, by decide⟩
  · simp only [send]
    split
    · split <;> rfl
    · rfl
  · intro r hct hok
    simp [send, hok, hct]

/-! ## Event-log decoder (`Logs` of `src/unnamed/part_000`)

Strings stay `String`; JavaScript `undefined` and decoded tuple objects are
the extra constructors of `RawArg`; a `BigNumber` that would be `NaN` is
`none`. Thrown errors are the constructors of `LogsErr`, each carrying what
the thrown message interpolates. -/

/-- The errors the decoder can throw, one constructor per `throw new Error`
site (the source's message is noted on each). -/
inductive LogsErr where
  /-- `Contract has not been deployed` (the `contractsByAddress` getter). -/
  | contractNotDeployed
  /-- `Receipt has no logs` (`parseLogs`). -/
  | receiptHasNoLogs
  /-- A JavaScript `TypeError`: calling a string method on a value that is
  not a string (`log.topics[0]` of an empty topics list, `.substr` of a
  non-string argument). -/
  | typeError
  /-- `Unknown event arg type <t>` (`parseValue`). -/
  | unknownArgType (t : String)
  /-- `Unknown tuple type <s> in event` (`parseTuple`). -/
  | unknownTupleType (s : String)
  /-- `Arg name mismatch for tuple <s>` (`parseTuple`). -/
  | tupleArgNameMismatch (s : String)
deriving DecidableEq, Repr

/-! ### Hex and decimal parsing (the `bignumber.js` calls of the source) -/

def hexVal? (c : Char) : Option Nat :=
  if '0' ≤ c ∧ c ≤ '9' then some (c.toNat - 48)
  else if 'a' ≤ c ∧ c ≤ 'f' then some (c.toNat - 87)
  else if 'A' ≤ c ∧ c ≤ 'F' then some (c.toNat - 55)
  else none

def hexDigitsVal (l : List Char) : Option Nat :=
  l.foldl
    (fun acc c =>
      match acc, hexVal? c with
      | some a, some d => some (a * 16 + d)
      | _, _ => none)
    (some 0)

/-- `new BigNumber(s, 16)` on the strings this decoder builds: a non-empty
run of hex digits is its value, anything else (including the empty string)
is `NaN` (`none`). -/
def hexToNat? (l : List Char) : Option Nat :=
  match l with
  | [] => none
  | _ :: _ => hexDigitsVal l

/-- `new BigNumber(s, 16)` also accepts a leading `0x`/`0X`. -/
def bigNumberOfHexChars (l : List Char) : Option Nat :=
  if l.take 2 = ['0', 'x'] ∨ l.take 2 = ['0', 'X'] then hexToNat? (l.drop 2)
  else hexToNat? l

/-- `new BigNumber(s)` on the decimal strings `decodeLog` produces for
integer arguments: a non-empty digit string is its value, anything else is
`NaN` (`none`). -/
def bigNumberOfDec (s : String) : Option Nat :=
  if s.data ≠ [] ∧ s.data.all Char.isDigit then
    some (s.data.foldl (fun a c => a * 10 + (c.toNat - 48)) 0)
  else none

/-- JavaScript `s.substr(start, len)`. -/
def substrJS (s : String) (start len : Nat) : List Char :=
  (s.data.drop start).take len

/-- JavaScript `s.toLowerCase()` on the ASCII strings handled here
(hex addresses and signature hashes), written on the character list so that
it evaluates. -/
def toLowerJS (s : String) : String :=
  String.mk (s.data.map Char.toLower)

/-- `bn.isZero()`: false for `NaN`. -/
def bnIsZero : Option Nat → Bool
  | some n => n == 0
  | none => false

/-- `bn.toNumber() & mask`, then compared with `0`: `NaN & mask` is `0` in
JavaScript, so a `NaN` flag word sets no flag. -/
def bnAndNonzero : Option Nat → Nat → Bool
  | some n, m => (n &&& m) != 0
  | none, _ => false

/-- `marginIsPositive ? margin : margin.negated()` on a possibly-`NaN`
magnitude. -/
def signedMagnitude (isPositive : Bool) (m : Option Nat) : Option Int :=
  m.map (fun v => if isPositive then (v : Int) else -(v : Int))

/-- `BaseValue.fromSolidity` (`src/src/lib/types.ts` lines 257-268):
`BigNumber(v).shiftedBy(-18)`, negated when not positive.
`BASE_DECIMALS = 18`. -/
def baseValueFromSolidity (v : Option Nat) (isPositive : Bool) : Option ℚ :=
  v.map (fun n => if isPositive then (n : ℚ) / 10 ^ 18 else -((n : ℚ) / 10 ^ 18))

/-! ### The ABI data the decoder walks -/

/-- One entry of an event's `inputs` (web3's `AbiInput`): argument name,
solidity type, `internalType`, and nested tuple components. -/
inductive AbiInput where
  | mk (name : String) (type : String) (internalType : String)
      (components : List AbiInput)
deriving Repr

def AbiInput.name : AbiInput → String
  | .mk n _ _ _ => n

def AbiInput.type : AbiInput → String
  | .mk _ t _ _ => t

def AbiInput.internalType : AbiInput → String
  | .mk _ _ it _ => it

def AbiInput.components : AbiInput → List AbiInput
  | .mk _ _ _ cs => cs

/-- A raw decoded argument value as `web3.eth.abi.decodeLog` hands it over:
a primitive rendered as a string, a decoded tuple object, or `undefined`
(a name the decoder did not produce). -/
inductive RawArg where
  | jsUndefined
  | prim (s : String)
  | tup (fields : List (String × RawArg))
deriving Repr

/-- `eventArgs[name]`: `undefined` when absent. -/
def lookupArg (fields : List (String × RawArg)) (n : String) : RawArg :=
  match fields.find? (fun p => p.1 == n) with
  | some p => p.2
  | none => .jsUndefined

/-- A typed decoded argument value (the results of `parseValue`). -/
inductive Value where
  /-- `address`, `bool` and `bytesN` arguments are passed through. -/
  | raw (v : RawArg)
  /-- `new BigNumber(argValue)` for the remaining `uintN` types. -/
  | bigint (v : Option Nat)
  /-- `Fee.fromSolidity` / `Price.fromSolidity`. -/
  | fixedPoint (v : Option ℚ)
  /-- `parseBalance`: a `Balance` (signed margin and position) with the raw
  word attached as `rawValue`. -/
  | balanceV (margin : Option Int) (position : Option Int) (rawValue : String)
  /-- `parseIndex` / `parseFundingRate`. -/
  | indexV (timestamp : Option Nat) (baseValue : Option ℚ) (rawValue : String)
  /-- `parseOrderFlags`. -/
  | flagsV (rawValue : RawArg) (isBuy : Bool) (isDecreaseOnly : Bool)
      (isNegativeLimitFee : Bool)
  /-- A decoded tuple. -/
  | obj (fields : List (String × Value))
deriving Repr

/-- Modelled from the spec: `ORDER_FLAGS` of `src/lib/Constants.ts` is not in
the repository snapshot; section 4.4 fixes bit 0 = is-buy, bit 1 =
is-decrease-only, bit 2 = is-negative-limit-fee. -/
def ORDER_FLAGS_IS_BUY : Nat := 1

/-- Modelled from the spec: see `ORDER_FLAGS_IS_BUY`. -/
def ORDER_FLAGS_IS_DECREASE_ONLY : Nat := 2

/-- Modelled from the spec: see `ORDER_FLAGS_IS_BUY`. -/
def ORDER_FLAGS_IS_NEGATIVE_LIMIT_FEE : Nat := 4

/-- `const TUPLE_MAP = { 'struct P1Orders.Fill': [...] }`. -/
def TUPLE_MAP : List (String × List String) :=
  [("struct P1Orders.Fill", ["amount", "price", "fee", "isNegativeFee"])]

def lookupTupleMap (it : String) : Option (List String) :=
  (TUPLE_MAP.find? (fun p => p.1 == it)).map (·.2)

/-! ### The packed-struct decoders -/

/-- `Logs.parseBalance` (`src/unnamed/part_000` lines 210-221): margin
magnitude at nibbles 4-33, position magnitude at nibbles 36-65, sign flags at
nibbles 2-3 and 34-35 (`nonzero = positive`); the raw word is attached. -/
def parseBalance (balance : String) : Value :=
  let margin := bigNumberOfHexChars (substrJS balance 4 30)
  let position := bigNumberOfHexChars (substrJS balance 36 30)
  let marginIsPositive := !(bnIsZero (bigNumberOfHexChars (substrJS balance 2 2)))
  let positionIsPositive := !(bnIsZero (bigNumberOfHexChars (substrJS balance 34 2)))
  .balanceV (signedMagnitude marginIsPositive margin)
    (signedMagnitude positionIsPositive position) balance

/-- `Logs.parseIndex` (lines 227-236); `parseFundingRate` is the same
function with a different result type. -/
def parseIndex (index : String) : Value :=
  let timestamp := bigNumberOfHexChars (substrJS index 2 30)
  let isPositive := !(bnIsZero (bigNumberOfHexChars (substrJS index 32 2)))
  let value := bigNumberOfHexChars (substrJS index 34 32)
  .indexV timestamp (baseValueFromSolidity value isPositive) index

/-- `Logs.parseOrderFlags` (lines 238-246): the whole word modulo 8, tested
against the three flag bits. A non-string argument makes the `BigNumber`
`NaN` (no throw), so every flag reads as false. -/
def parseOrderFlags (flags : RawArg) : Value :=
  let flagsNumber :=
    (match flags with
      | .prim s => bigNumberOfHexChars s.data
      | _ => none).map (· % 8)
  .flagsV flags (bnAndNonzero flagsNumber ORDER_FLAGS_IS_BUY)
    (bnAndNonzero flagsNumber ORDER_FLAGS_IS_DECREASE_ONLY)
    (bnAndNonzero flagsNumber ORDER_FLAGS_IS_NEGATIVE_LIMIT_FEE)

/-! ### Argument dispatch (`parseValue`, `parseArgs`, `parseTuple`) -/

/-- `input.type.match(/^uint[0-9]*$/)`. -/
def isUintType (t : String) : Bool :=
  match t.data with
  | 'u' :: 'i' :: 'n' :: 't' :: rest => rest.all Char.isDigit
  | _ => false

/-- `input.type.match(/^bytes[0-9]*$/)`. -/
def isBytesType (t : String) : Bool :=
  match t.data with
  | 'b' :: 'y' :: 't' :: 'e' :: 's' :: rest => rest.all Char.isDigit
  | _ => false

/-- `new BigNumber(argValue)`: a decoded decimal string has its value,
`undefined` and objects give `NaN`. -/
def bigNumberOfArg : RawArg → Option Nat
  | .prim s => bigNumberOfDec s
  | _ => none

/-- `this.parseBalance(argValue)`: `parseBalance` calls `.substr` on its
argument, which throws unless the argument is a string. -/
def parseBalanceArg : RawArg → Except LogsErr Value
  | .prim s => .ok (parseBalance s)
  | _ => .error .typeError

/-- `this.parseIndex(argValue)` (also `parseFundingRate`, which is
`parseIndex` with a different result type): throws unless given a string. -/
def parseIndexArg : RawArg → Except LogsErr Value
  | .prim s => .ok (parseIndex s)
  | _ => .error .typeError

/-- The tuple value `parseArgs(input.components, argValue)` reads its fields
from: a decoded tuple object gives its fields; a string gives no field (every
name indexes to `undefined`); `undefined` itself cannot be indexed and
throws. -/
def tupleFieldsOf : RawArg → Except LogsErr (List (String × RawArg))
  | .jsUndefined => .error .typeError
  | .prim _ => .ok []
  | .tup fields => .ok fields

mutual

/-- `Logs.parseValue` (lines 147-191): dispatch on the declared solidity type
and, for `bytes32`/`uint256`, on the argument name; unmatched
`bytes32`/`uint256` names fall through the `switch` to the later type checks.
A type outside the handled set throws `Unknown event arg type ...`.
The tuple branch is `parseTuple` (lines 193-208) inlined at its single call
site: look the `internalType` up in `TUPLE_MAP` (unknown: throw), compare the
registered component names with the declared ones (mismatch: throw), then
decode the components recursively. -/
def parseValue : AbiInput → RawArg → Except LogsErr Value
  | .mk nm ty it comps, argValue =>
    if ty = "bytes32" ∧
        (nm = "balance" ∨ nm = "makerBalance" ∨ nm = "takerBalance") then
      parseBalanceArg argValue
    else if ty = "bytes32" ∧ nm = "index" then
      parseIndexArg argValue
    else if ty = "bytes32" ∧ nm = "flags" then
      .ok (parseOrderFlags argValue)
    else if ty = "bytes32" ∧ nm = "fundingRate" then
      parseIndexArg argValue
    else if ty = "uint256" ∧ nm = "fee" then
      .ok (.fixedPoint (baseValueFromSolidity (bigNumberOfArg argValue) true))
    else if ty = "uint256" ∧
        (nm = "price" ∨ nm = "oraclePrice" ∨
          nm = "settlementPrice" ∨ nm = "triggerPrice") then
      .ok (.fixedPoint (baseValueFromSolidity (bigNumberOfArg argValue) true))
    else if ty = "address" then .ok (.raw argValue)
    else if ty = "bool" then .ok (.raw argValue)
    else if isBytesType ty then .ok (.raw argValue)
    else if isUintType ty then .ok (.bigint (bigNumberOfArg argValue))
    else if ty = "tuple" then
      (lookupTupleMap it).elim (.error (.unknownTupleType it))
        (fun expectedTupleArgs =>
          if (comps.map AbiInput.name) = expectedTupleArgs then
            (tupleFieldsOf argValue).bind
              (fun fields => (parseComponents comps fields).map .obj)
          else .error (.tupleArgNameMismatch it))
    else .error (.unknownArgType ty)

/-- `Logs.parseArgs` (lines 138-145): each declared input in order, looked up
by name in the decoded argument record. -/
def parseComponents : List AbiInput → List (String × RawArg) →
    Except LogsErr (List (String × Value))
  | [], _ => .ok []
  | c :: rest, fields => do
    let v ← parseValue c (lookupArg fields c.name)
    let vs ← parseComponents rest fields
    pure ((c.name, v) :: vs)

end

/-- The source's entry point `parseArgs(inputs, eventArgs)`. -/
def parseArgs (inputs : List AbiInput) (eventArgs : List (String × RawArg)) :
    Except LogsErr (List (String × Value)) :=
  parseComponents inputs eventArgs

/-! ### Contracts, the address registry and log resolution -/

/-- One event of a contract's `jsonInterface` (the entries with
`type === event`): name, canonical signature hash, declared inputs. -/
structure EventAbi where
  name : String
  signature : String
  inputs : List AbiInput
deriving Repr

/-- One entry of `Contracts.contractsList` as `Logs` reads it:
`contract.options.address` (`none` = not deployed on this network, exactly
what `setContractProvider` assigns for an absent deployment entry),
`isTest`, and the contract's event list. -/
structure ContractModel where
  addr : Option String
  isTest : Bool
  events : List EventAbi
deriving Repr

/-- The `IContractsByAddress` mapping: lowercased address to contract, later
insertions overwriting earlier ones like JavaScript property assignment. -/
def Registry : Type := List (String × ContractModel)

def insertRegistry (reg : Registry) (key : String) (c : ContractModel) :
    Registry :=
  (reg.filter (fun p => !(p.1 == key))) ++ [(key, c)]

def lookupRegistry (reg : Registry) (a : String) : Option ContractModel :=
  ((reg : List (String × ContractModel)).find? (fun p => p.1 == a)).map (·.2)

def emptyRegistry : Registry := ([] : List (String × ContractModel))

def buildRegistryAux : Registry → List ContractModel → Except LogsErr Registry
  | acc, [] => .ok acc
  | acc, c :: rest =>
    if c.isTest then buildRegistryAux acc rest
    else
      match c.addr with
      | none => .error .contractNotDeployed
      | some a => buildRegistryAux (insertRegistry acc (toLowerJS a) c) rest

/-- The `contractsByAddress` getter (`src/unnamed/part_000` lines 40-54):
walks `contractsList` in order, skips test contracts, throws
`Contract has not been deployed` at the first non-test contract without an
address, and keys every other contract by its lowercased address. -/
def buildRegistry (contractsList : List ContractModel) : Except LogsErr Registry :=
  buildRegistryAux emptyRegistry contractsList

/-- Modelled from the spec: `addressesAreEqual` of `src/lib/BytesHelper.ts`
is not in the repository snapshot; sections 4.3 and 4.4 say hex addresses are
canonicalized to a single case and compared case-insensitively. An absent
address (`undefined`) equals nothing. -/
def addressesAreEqual (a : String) (b : Option String) : Bool :=
  match b with
  | some b => toLowerJS a == toLowerJS b
  | none => false

/-- A raw log as `parseLog` reads it. -/
structure LogModel where
  address : String
  data : String
  topics : List String
  logIndex : Int
  transactionHash : String
deriving Repr

/-- A decoded log: `{ ...log, name, args }`. -/
structure DecodedLog where
  log : LogModel
  name : String
  args : List (String × Value)
deriving Repr

/-- The collaborators `Logs` reads: the contracts list, the
`perpetualProxy` contract, and `web3.eth.abi.decodeLog` as an oracle taking
the declared inputs, the data word and the non-first topics. -/
structure LogsEnv where
  contractsList : List ContractModel
  perpetualProxy : ContractModel
  decodeLog : List AbiInput → String → List String → List (String × RawArg)

/-- `events.find(e => e.signature.toLowerCase() === log.topics[0].toLowerCase())`. -/
def sigLookup (c : ContractModel) (t0 : String) : Option EventAbi :=
  c.events.find? (fun e => toLowerJS e.signature == toLowerJS t0)

/-- `Logs.parseLogWithContract` (lines 112-136). Reading `log.topics[0]` of
an empty topics list and calling `.toLowerCase()` on it throws. -/
def parseLogWithContract (env : LogsEnv) (contract : ContractModel)
    (log : LogModel) : Except LogsErr (Option DecodedLog) :=
  match log.topics with
  | [] => .error .typeError
  | t0 :: restTopics =>
    match sigLookup contract t0 with
    | none => .ok none
    | some eventJson =>
      (parseArgs eventJson.inputs (env.decodeLog eventJson.inputs log.data restTopics)).map
        (fun args => some ⟨log, eventJson.name, args⟩)

/-- The second half of `parseLog`: build (or reuse) `contractsByAddress` and
resolve the lowercased source address in it; an unknown address is `null`. -/
def parseLogViaRegistry (env : LogsEnv) (logAddress : String) (log : LogModel) :
    Except LogsErr (Option DecodedLog) :=
  match buildRegistry env.contractsList with
  | .error e => .error e
  | .ok reg =>
    match lookupRegistry reg logAddress with
    | some c => parseLogWithContract env c log
    | none => .ok none

/-- `Logs.parseLog` (lines 94-110): try the proxy ABI first when the source
address is the proxy's, fall back to the address registry otherwise or when
the proxy ABI does not know the event signature. -/
def parseLog (env : LogsEnv) (log : LogModel) : Except LogsErr (Option DecodedLog) :=
  let logAddress := toLowerJS log.address
  if addressesAreEqual logAddress env.perpetualProxy.addr then
    match parseLogWithContract env env.perpetualProxy log with
    | .error e => .error e
    | .ok (some parsedLog) => .ok (some parsedLog)
    | .ok none => parseLogViaRegistry env logAddress log
  else parseLogViaRegistry env logAddress log

/-! ### Receipt decoding (`parseLogs`) -/

/-- A normalized event record (web3 `EventLog`) as `parseEvent` reads it. -/
structure EventModel where
  address : String
  rawData : String
  rawTopics : List String
  logIndex : Int
  transactionHash : String
deriving Repr

/-- `Logs.parseEvent` (lines 81-92): rebuild a raw log from the event
record's fields and decode it. -/
def parseEvent (env : LogsEnv) (event : EventModel) :
    Except LogsErr (Option DecodedLog) :=
  parseLog env
    { address := event.address
      data := event.rawData
      topics := event.rawTopics
      logIndex := event.logIndex
      transactionHash := event.transactionHash }

/-- A value of `receipt.events`: one event or a list of repeated emissions of
the same name. -/
inductive EventEntry where
  | single (e : EventModel)
  | multiple (es : List EventModel)
deriving Repr

/-- A `TxResult` as `parseLogs` reads it: an ordered `logs` list, or a
name-keyed `events` record, or neither. -/
structure TxReceiptModel where
  logs : Option (List LogModel)
  events : Option (List (String × EventEntry))
deriving Repr

/-- `Object.values(tempEvents).forEach(...)`: flatten the record's values in
key order, spreading arrays. -/
def flattenEvents (entries : List (String × EventEntry)) : List EventModel :=
  entries.foldl
    (fun acc p =>
      match p.2 with
      | .single e => acc ++ [e]
      | .multiple es => acc ++ es)
    []

/-- Stable insertion into a list sorted ascending by `logIndex`. -/
def insertByLogIndex (e : EventModel) : List EventModel → List EventModel
  | [] => [e]
  | x :: xs =>
    if e.logIndex ≤ x.logIndex then e :: x :: xs else x :: insertByLogIndex e xs

/-- `events.sort((a, b) => a.logIndex - b.logIndex)`: a stable ascending sort
by `logIndex`. -/
def sortByLogIndex (es : List EventModel) : List EventModel :=
  es.foldr insertByLogIndex []

/-- `Logs.parseLogs` (lines 56-79): decode `receipt.logs` in order when
present, else flatten and sort `receipt.events` by log index and decode
those, else throw `Receipt has no logs`; unresolved logs are filtered out. -/
def parseLogs (env : LogsEnv) (receipt : TxReceiptModel) :
    Except LogsErr (List DecodedLog) :=
  match receipt.logs with
  | some logs =>
    (logs.mapM (parseLog env)).map (fun parsed => parsed.filterMap id)
  | none =>
    match receipt.events with
    | some entries =>
      ((sortByLogIndex (flattenEvents entries)).mapM (parseEvent env)).map
        (fun parsed => parsed.filterMap id)
    | none => .error .receiptHasNoLogs

/-! ## Registry construction (C6) -/

theorem buildRegistryAux_error (l : List ContractModel) :
    ∀ acc : Registry, (∃ c ∈ l, c.isTest = false ∧ c.addr = none) →
      buildRegistryAux acc l = .error .contractNotDeployed := by
  induction l with
  | nil => intro acc h; obtain ⟨c, hc, _⟩ := h; exact absurd hc (List.not_mem_nil c)
  | cons c rest ih =>
    intro acc h
    by_cases ht : c.isTest
    · have hrest : ∃ d ∈ rest, d.isTest = false ∧ d.addr = none := by
        obtain ⟨d, hd, hdt, hda⟩ := h
        rcases List.mem_cons.mp hd with rfl | hd2
        · rw [ht] at hdt; exact absurd hdt (by simp)
        · exact ⟨d, hd2, hdt, hda⟩
      simp only [buildRegistryAux, ht, if_true]
      exact ih acc hrest
    · simp only [buildRegistryAux, ht, if_false]
      cases ha : c.addr with
      | none => rfl
      | some a =>
        have hrest : ∃ d ∈ rest, d.isTest = false ∧ d.addr = none := by
          obtain ⟨d, hd, hdt, hda⟩ := h
          rcases List.mem_cons.mp hd with rfl | hd2
          · rw [ha] at hda; exact absurd hda (by simp)
          · exact ⟨d, hd2, hdt, hda⟩
        exact ih _ hrest

theorem buildRegistryAux_ok (l : List ContractModel) :
    ∀ acc : Registry, (∀ c ∈ l, c.isTest = false → c.addr ≠ none) →
      ∃ reg, buildRegistryAux acc l = .ok reg := by
  induction l with
  | nil => intro acc _; exact ⟨acc, rfl⟩
  | cons c rest ih =>
    intro acc h
    by_cases ht : c.isTest
    · simp only [buildRegistryAux, ht, if_true]
      exact ih acc (fun d hd => h d (List.mem_cons_of_mem c hd))
    · simp only [buildRegistryAux, ht, if_false]
      cases ha : c.addr with
      | none =>
        exact absurd ha (h c (List.mem_cons_self c rest) (Bool.eq_false_iff.mpr ht))
      | some a =>
        exact ih _ (fun d hd => h d (List.mem_cons_of_mem c hd))

/-- C6, counterexample to the claim as stated: on a contracts list holding a
single non-test contract with no deployed address, building the address
registry itself raises `Contract has not been deployed` — it does not wait
for that contract to be targeted. -/
theorem c6_counterexample_build_throws :
    buildRegistry [{ addr := none, isTest := false, events := [] }] =
      .error .contractNotDeployed := rfl

/-- C6, amended: building the lazily constructed address-to-contract mapping
raises `Contract has not been deployed` as soon as some non-test contract of
the list has no deployed address (test contracts are skipped silently), and
succeeds exactly when every non-test contract has one; the error is thus
raised at (lazy) registry build time, not deferred to the moment the
undeployed contract is targeted. -/
theorem c6_amended_registry_build (contractsList : List ContractModel) :
    ((∃ c ∈ contractsList, c.isTest = false ∧ c.addr = none) →
      buildRegistry contractsList = .error .contractNotDeployed) ∧
    ((∀ c ∈ contractsList, c.isTest = false → c.addr ≠ none) →
      ∃ reg, buildRegistry contractsList = .ok reg) :=
  ⟨buildRegistryAux_error contractsList emptyRegistry,
    buildRegistryAux_ok contractsList emptyRegistry⟩

/-! ## Receipt decoding entry (C10) -/

/-- C10. A receipt exposing neither a `logs` list nor a name-keyed `events`
record makes `parseLogs` throw `Receipt has no logs` instead of returning an
empty sequence. -/
theorem c10_receipt_without_logs_throws (env : LogsEnv)
    (receipt : TxReceiptModel) (hlogs : receipt.logs = none)
    (hevents : receipt.events = none) :
    parseLogs env receipt = .error .receiptHasNoLogs := by
  simp [parseLogs, hlogs, hevents]

/-- Witness for C10 at a concrete input. -/
theorem c10_receipt_without_logs_witness :
    parseLogs
      { contractsList := []
        perpetualProxy := { addr := none, isTest := false, events := [] }
        decodeLog := fun _ _ _ => [] }
      { logs := none, events := none } = .error .receiptHasNoLogs :=
  c10_receipt_without_logs_throws
    { contractsList := []
      perpetualProxy := { addr := none, isTest := false, events := [] }
      decodeLog := fun _ _ _ => [] }
    { logs := none, events := none } rfl rfl

/-! ## Unresolvable logs are absent, not errors (C5) -/

/-- C5. With a buildable registry, a raw log whose lowercased source address
is neither the proxy's address nor a key of the address-to-contract mapping
decodes to absent (`Except.ok none`), never a thrown error; the same holds
when the address does resolve (through the proxy or the registry) but the
log's first topic matches no known event signature of the consulted
contracts. The hypotheses cover exactly those two situations: whenever a
contract is consulted, its signature lookup fails. -/
theorem c5_unknown_log_is_absent (env : LogsEnv) (log : LogModel)
    (reg : Registry)
    (hreg : buildRegistry env.contractsList = .ok reg)
    (hproxy : addressesAreEqual (toLowerJS log.address) env.perpetualProxy.addr = true →
      ∃ t0 ts, log.topics = t0 :: ts ∧ sigLookup env.perpetualProxy t0 = none)
    (hbyaddr : ∀ c, lookupRegistry reg (toLowerJS log.address) = some c →
      ∃ t0 ts, log.topics = t0 :: ts ∧ sigLookup c t0 = none) :
    parseLog env log = .ok none := by
  have hvia : parseLogViaRegistry env (toLowerJS log.address) log = .ok none := by
    simp only [parseLogViaRegistry, hreg]
    cases hlk : lookupRegistry reg (toLowerJS log.address) with
    | none => rfl
    | some c =>
      obtain ⟨t0, ts, htop, hsig⟩ := hbyaddr c hlk
      simp [parseLogWithContract, htop, hsig]
  by_cases hp : addressesAreEqual (toLowerJS log.address) env.perpetualProxy.addr = true
  · obtain ⟨t0, ts, htop, hsig⟩ := hproxy hp
    simp only [parseLog, hp, if_true]
    have hpwc : parseLogWithContract env env.perpetualProxy log = .ok none := by
      simp [parseLogWithContract, htop, hsig]
    rw [hpwc]
    exact hvia
  · simp only [parseLog, hp, if_false]
    exact hvia

/-- Witness for C5 at a concrete input: an empty contracts list, a proxy at a
different address, and a log from an unrelated contract. -/
theorem c5_unknown_log_witness :
    parseLog
      { contractsList := []
        perpetualProxy := { addr := some "0xAAAA", isTest := false, events := [] }
        decodeLog := fun _ _ _ => [] }
      { address := "0xBBBB", data := "", topics := [], logIndex := 0,
        transactionHash := "" } = .ok none :=
  c5_unknown_log_is_absent
    { contractsList := []
      perpetualProxy := { addr := some "0xAAAA", isTest := false, events := [] }
      decodeLog := fun _ _ _ => [] }
    { address := "0xBBBB", data := "", topics := [], logIndex := 0,
      transactionHash := "" }
    emptyRegistry rfl
    (fun h => absurd h (by decide))
    (fun c hc => Option.noConfusion hc)

/-! ## Argument-type dispatch (C7) -/

/-- The solidity types `parseValue` has a handling for (by type alone;
`bytes32`/`uint256` name-special cases refine inside these): `address`,
`bool`, `bytesN`, `uintN` and `tuple`. `intN` is absent. -/
def argTypeRecognized (t : String) : Bool :=
  decide (t = "address") || decide (t = "bool") || isBytesType t ||
    isUintType t || decide (t = "tuple")

theorem except_map_error {ε α β : Type} (f : α → β) (x : Except ε α) (e : ε)
    (h : x.map f = .error e) : x = .error e := by
  cases x with
  | error e2 => simpa [Except.map] using h
  | ok v => simp [Except.map] at h

theorem parseComponents_error_mem (l : List AbiInput)
    (fields : List (String × RawArg)) (e : LogsErr) :
    parseComponents l fields = .error e →
    ∃ c ∈ l, parseValue c (lookupArg fields c.name) = .error e := by
  induction l with
  | nil => intro h; simp [parseComponents] at h
  | cons c rest ih =>
    intro h
    simp only [parseComponents, bind, Except.bind] at h
    cases hv : parseValue c (lookupArg fields c.name) with
    | error e2 =>
      rw [hv] at h
      simp only [Except.error.injEq] at h
      exact ⟨c, List.mem_cons_self c rest, by rw [hv, h]⟩
    | ok v =>
      rw [hv] at h
      cases hr : parseComponents rest fields with
      | error e3 =>
        rw [hr] at h
        simp only [Except.error.injEq] at h
        obtain ⟨d, hd, hde⟩ := ih (by rw [hr, h])
        exact ⟨d, List.mem_cons_of_mem c hd, hde⟩
      | ok vs =>
        rw [hr] at h
        simp [pure, Except.pure] at h

/-- The unrecognized-argument-type error always names a type outside the
handled set: no input whose declared type is in the set produces it, at any
nesting depth of tuple components. -/
theorem parseValue_unknownArgType_unrecognized :
    ∀ (input : AbiInput) (argValue : RawArg) (t : String),
      parseValue input argValue = .error (.unknownArgType t) →
      argTypeRecognized t = false
  | .mk nm ty it comps, argValue, t => fun h => by
    simp only [parseValue] at h
    by_cases hb1 : ty = "bytes32" ∧
        (nm = "balance" ∨ nm = "makerBalance" ∨ nm = "takerBalance")
    · rw [if_pos hb1] at h
      cases argValue <;> simp_all [parseBalanceArg]
    rw [if_neg hb1] at h
    by_cases hb2 : ty = "bytes32" ∧ nm = "index"
    · rw [if_pos hb2] at h
      cases argValue <;> simp_all [parseIndexArg]
    rw [if_neg hb2] at h
    by_cases hb3 : ty = "bytes32" ∧ nm = "flags"
    · rw [if_pos hb3] at h
      simp_all
    rw [if_neg hb3] at h
    by_cases hb4 : ty = "bytes32" ∧ nm = "fundingRate"
    · rw [if_pos hb4] at h
      cases argValue <;> simp_all [parseIndexArg]
    rw [if_neg hb4] at h
    by_cases hb5 : ty = "uint256" ∧ nm = "fee"
    · rw [if_pos hb5] at h
      simp_all
    rw [if_neg hb5] at h
    by_cases hb6 : ty = "uint256" ∧
        (nm = "price" ∨ nm = "oraclePrice" ∨
          nm = "settlementPrice" ∨ nm = "triggerPrice")
    · rw [if_pos hb6] at h
      simp_all
    rw [if_neg hb6] at h
    by_cases hb7 : ty = "address"
    · rw [if_pos hb7] at h
      simp_all
    rw [if_neg hb7] at h
    by_cases hb8 : ty = "bool"
    · rw [if_pos hb8] at h
      simp_all
    rw [if_neg hb8] at h
    by_cases hb9 : isBytesType ty = true
    · rw [if_pos hb9] at h
      simp_all
    rw [if_neg hb9] at h
    by_cases hb10 : isUintType ty = true
    · rw [if_pos hb10] at h
      simp_all
    rw [if_neg hb10] at h
    by_cases hb11 : ty = "tuple"
    · rw [if_pos hb11] at h
      cases hmap : lookupTupleMap it with
      | none => rw [hmap] at h; simp_all [Option.elim]
      | some expected =>
        rw [hmap] at h
        simp only [Option.elim] at h
        by_cases hnames : comps.map AbiInput.name = expected
        · rw [if_pos hnames] at h
          cases argValue with
          | jsUndefined => simp_all [tupleFieldsOf, Except.bind]
          | prim s =>
            simp only [tupleFieldsOf, Except.bind] at h
            have hcomp := except_map_error _ _ _ h
            obtain ⟨c, hc, hce⟩ := parseComponents_error_mem comps [] _ hcomp
            exact parseValue_unknownArgType_unrecognized c _ t hce
          | tup fields =>
            simp only [tupleFieldsOf, Except.bind] at h
            have hcomp := except_map_error _ _ _ h
            obtain ⟨c, hc, hce⟩ := parseComponents_error_mem comps fields _ hcomp
            exact parseValue_unknownArgType_unrecognized c _ t hce
        · rw [if_neg hnames] at h
          simp_all
    rw [if_neg hb11] at h
    simp only [Except.error.injEq, LogsErr.unknownArgType.injEq] at h
    subst h
    simp only [argTypeRecognized, Bool.or_eq_false_iff,
      decide_eq_false_iff_not, Bool.not_eq_true]
    refine ⟨⟨⟨⟨hb7, hb8⟩, ?_⟩, ?_⟩, hb11⟩
    · exact Bool.eq_false_iff.mpr hb9
    · exact Bool.eq_false_iff.mpr hb10
termination_by input _ _ => sizeOf input
decreasing_by
  all_goals
    have hlt := List.sizeOf_lt_of_mem hc
    simp only [AbiInput.mk.sizeOf_spec]
    omega

theorem isBytesType_false_of_isUintType (t : String) (hu : isUintType t = true) :
    isBytesType t = false := by
  unfold isUintType at hu
  unfold isBytesType
  split at hu
  next rest heq =>
    split
    next rest2 heq2 =>
      rw [heq] at heq2
      injection heq2 with h1 _
      exact absurd h1 (by decide)
    next => rfl
  next => exact absurd hu (by simp)

theorem ne_of_isUintType (t : String) (hu : isUintType t = true) :
    t ≠ "address" ∧ t ≠ "bool" ∧ t ≠ "bytes32" ∧ t ≠ "tuple" := by
  refine ⟨?_, ?_, ?_, ?_⟩ <;> intro he <;> rw [he] at hu <;>
    exact absurd hu (by decide)

/-- C7, counterexample to the claim as stated: an argument declared `int256`
(a type the claim says decodes to an arbitrary-precision integer and is
inside the enumerated set) is not handled by `parseValue` — it fails with
the unrecognized-argument-type error. -/
theorem c7_counterexample_int256 :
    parseValue (.mk "x" "int256" "int256" []) (.prim "5") =
      .error (.unknownArgType "int256") := rfl

/-- C7, amended: a `uintN` argument (any width) whose type/name combination
triggers no fixed-point rule decodes to an arbitrary-precision integer, but
`intN` is not handled: exactly the types outside
{`address`, `bool`, `bytesN`, `uintN`, `tuple`} — so in particular every
`intN` — fail with the unrecognized-argument-type error, and that error only
ever names a type outside that set, at any tuple-nesting depth. -/
theorem c7_amended_argument_types (input : AbiInput) (argValue : RawArg) :
    (isUintType input.type = true →
      ¬(input.type = "uint256" ∧
        (input.name = "fee" ∨ input.name = "price" ∨ input.name = "oraclePrice" ∨
          input.name = "settlementPrice" ∨ input.name = "triggerPrice")) →
      parseValue input argValue = .ok (.bigint (bigNumberOfArg argValue))) ∧
    (argTypeRecognized input.type = false →
      parseValue input argValue = .error (.unknownArgType input.type)) ∧
    (∀ t, parseValue input argValue = .error (.unknownArgType t) →
      argTypeRecognized t = false) := by
  obtain ⟨nm, ty, it, comps⟩ := input
  simp only [AbiInput.type, AbiInput.name]
  refine ⟨?_, ?_, ?_⟩
  · intro hu hname
    obtain ⟨hna, hnb, hn32, _⟩ := ne_of_isUintType ty hu
    have hnby := isBytesType_false_of_isUintType ty hu
    simp only [parseValue]
    rw [if_neg (fun hc => hn32 hc.1), if_neg (fun hc => hn32 hc.1),
      if_neg (fun hc => hn32 hc.1), if_neg (fun hc => hn32 hc.1),
      if_neg (fun hc => hname ⟨hc.1, Or.inl hc.2⟩),
      if_neg (fun hc => hname ⟨hc.1, Or.inr hc.2⟩),
      if_neg hna, if_neg hnb,
      if_neg (by rw [hnby]; simp), if_pos hu]
  · intro hrec
    simp only [argTypeRecognized, Bool.or_eq_false_iff,
      decide_eq_false_iff_not] at hrec
    obtain ⟨⟨⟨⟨hna, hnb⟩, hby⟩, hui⟩, htu⟩ := hrec
    have hn32 : ¬ ty = "bytes32" := fun he => by
      rw [he] at hby; exact absurd hby (by decide)
    have hn256 : ¬ ty = "uint256" := fun he => by
      rw [he] at hui; exact absurd hui (by decide)
    simp only [parseValue]
    rw [if_neg (fun hc => hn32 hc.1), if_neg (fun hc => hn32 hc.1),
      if_neg (fun hc => hn32 hc.1), if_neg (fun hc => hn32 hc.1),
      if_neg (fun hc => hn256 hc.1), if_neg (fun hc => hn256 hc.1),
      if_neg hna, if_neg hnb,
      if_neg (by rw [hby]; simp), if_neg (by rw [hui]; simp), if_neg htu]
  · exact fun t h => parseValue_unknownArgType_unrecognized _ _ t h

/-! ## Balance wire encoding and the decode/encode round trip (C8) -/

/-- The lowercase hex digit of a nibble. -/
def hexChar (d : Nat) : Char :=
  match d with
  | 0 => '0' | 1 => '1' | 2 => '2' | 3 => '3'
  | 4 => '4' | 5 => '5' | 6 => '6' | 7 => '7'
  | 8 => '8' | 9 => '9' | 10 => 'a' | 11 => 'b'
  | 12 => 'c' | 13 => 'd' | 14 => 'e' | 15 => 'f'
  | _ => '0'

/-- `width` big-endian hex nibbles of `n` (zero-padded). -/
def natToHex : Nat → Nat → List Char
  | 0, _ => []
  | w + 1, n => natToHex w (n / 16) ++ [hexChar (n % 16)]

/-- Modelled from the spec: the sign-flag byte of the packed `Balance` word
(the encoder lives in test helpers outside the repository snapshot); section
4.4 fixes `nonzero = positive`, so positive encodes as `01` and negative as
`00`. -/
def signFlagNibbles (isPositive : Bool) : List Char :=
  if isPositive then ['0', '1'] else ['0', '0']

/-- Modelled from the spec: the packed `Balance` wire word (section 4.4):
a `0x`-prefixed 64-nibble big-endian hex word, nibbles 2-3 the margin-sign
flag, 4-33 the margin magnitude (120 bits), 34-35 the position-sign flag,
36-65 the position magnitude (120 bits). -/
def encodeBalance (marginIsPositive : Bool) (margin : Nat)
    (positionIsPositive : Bool) (position : Nat) : String :=
  String.mk ('0' :: 'x' ::
    (signFlagNibbles marginIsPositive ++ natToHex 30 margin ++
      signFlagNibbles positionIsPositive ++ natToHex 30 position))

theorem length_natToHex (w : Nat) : ∀ n, (natToHex w n).length = w := by
  induction w with
  | zero => intro n; rfl
  | succ w ih =>
    intro n
    simp [natToHex, ih]

theorem hexVal?_hexChar (d : Nat) (h : d < 16) : hexVal? (hexChar d) = some d := by
  interval_cases d <;> decide

theorem hexChar_ne_x (d : Nat) (h : d < 16) :
    hexChar d ≠ 'x' ∧ hexChar d ≠ 'X' := by
  interval_cases d <;> decide

theorem mem_natToHex (w : Nat) :
    ∀ n c, c ∈ natToHex w n → ∃ d, d < 16 ∧ c = hexChar d := by
  induction w with
  | zero => intro n c hc; exact absurd hc (List.not_mem_nil c)
  | succ w ih =>
    intro n c hc
    rcases List.mem_append.mp hc with hc1 | hc2
    · exact ih (n / 16) c hc1
    · rcases List.mem_singleton.mp hc2 with rfl
      exact ⟨n % 16, Nat.mod_lt n (by norm_num), rfl⟩

theorem hexFold_natToHex (w : Nat) :
    ∀ n acc, n < 16 ^ w →
      (natToHex w n).foldl
        (fun acc c =>
          match acc, hexVal? c with
          | some a, some d => some (a * 16 + d)
          | _, _ => none)
        (some acc) = some (acc * 16 ^ w + n) := by
  induction w with
  | zero =>
    intro n acc h
    have hn : n = 0 := Nat.lt_one_iff.mp h
    subst hn
    simp [natToHex]
  | succ w ih =>
    intro n acc h
    have hdiv : n / 16 < 16 ^ w := by
      rw [Nat.div_lt_iff_lt_mul (by norm_num : 0 < 16)]
      calc n < 16 ^ (w + 1) := h
        _ = 16 ^ w * 16 := by rw [pow_succ]
    rw [natToHex, List.foldl_append, ih (n / 16) acc hdiv]
    simp only [List.foldl_cons, List.foldl_nil,
      hexVal?_hexChar (n % 16) (Nat.mod_lt n (by norm_num))]
    congr 1
    have hdm : 16 * (n / 16) + n % 16 = n := Nat.div_add_mod n 16
    rw [pow_succ]
    nlinarith [hdm]

theorem hexDigitsVal_natToHex (w n : Nat) (h : n < 16 ^ w) :
    hexDigitsVal (natToHex w n) = some n := by
  have := hexFold_natToHex w n 0 h
  simpa [hexDigitsVal] using this

theorem hexToNat?_natToHex (w n : Nat) (hw : w ≠ 0) (h : n < 16 ^ w) :
    hexToNat? (natToHex w n) = some n := by
  have hlen := length_natToHex w n
  rcases hne : natToHex w n with _ | ⟨c, cs⟩
  · rw [hne] at hlen
    exact absurd hlen.symm hw
  · simp only [hexToNat?]
    rw [← hne]
    exact hexDigitsVal_natToHex w n h

theorem natToHex_no_hex_marker (w n : Nat) :
    (natToHex w n).take 2 ≠ ['0', 'x'] ∧ (natToHex w n).take 2 ≠ ['0', 'X'] := by
  constructor <;> intro hx
  · have hmem : 'x' ∈ (natToHex w n).take 2 := by rw [hx]; simp
    obtain ⟨d, hd, hdc⟩ := mem_natToHex w n 'x' (List.mem_of_mem_take hmem)
    exact absurd hdc.symm (hexChar_ne_x d hd).1
  · have hmem : 'X' ∈ (natToHex w n).take 2 := by rw [hx]; simp
    obtain ⟨d, hd, hdc⟩ := mem_natToHex w n 'X' (List.mem_of_mem_take hmem)
    exact absurd hdc.symm (hexChar_ne_x d hd).2

theorem bigNumberOfHexChars_natToHex (w n : Nat) (hw : w ≠ 0) (h : n < 16 ^ w) :
    bigNumberOfHexChars (natToHex w n) = some n := by
  rw [bigNumberOfHexChars,
    if_neg (fun hor => hor.elim (natToHex_no_hex_marker w n).1
      (natToHex_no_hex_marker w n).2)]
  exact hexToNat?_natToHex w n hw h

theorem packedWord_parts (s1 h1 s2 h2 : List Char)
    (hs1 : s1.length = 2) (hh1 : h1.length = 30) (hs2 : s2.length = 2)
    (hh2 : h2.length = 30) :
    (('0' :: 'x' :: (s1 ++ (h1 ++ (s2 ++ h2)))).drop 2).take 2 = s1 ∧
    (('0' :: 'x' :: (s1 ++ (h1 ++ (s2 ++ h2)))).drop 4).take 30 = h1 ∧
    (('0' :: 'x' :: (s1 ++ (h1 ++ (s2 ++ h2)))).drop 34).take 2 = s2 ∧
    (('0' :: 'x' :: (s1 ++ (h1 ++ (s2 ++ h2)))).drop 36).take 30 = h2 := by
  have hd2 : (s1 ++ (h1 ++ (s2 ++ h2))).drop 2 = h1 ++ (s2 ++ h2) := by
    rw [← hs1]; exact List.drop_left _ _
  have hd32 : (s1 ++ (h1 ++ (s2 ++ h2))).drop 32 = s2 ++ h2 := by
    rw [show (32 : Nat) = 2 + 30 from by norm_num, ← List.drop_drop, hd2, ← hh1]
    exact List.drop_left _ _
  have hd34 : (s1 ++ (h1 ++ (s2 ++ h2))).drop 34 = h2 := by
    rw [show (34 : Nat) = 32 + 2 from by norm_num, ← List.drop_drop, hd32, ← hs2]
    exact List.drop_left _ _
  refine ⟨?_, ?_, ?_, ?_⟩
  · show ((s1 ++ (h1 ++ (s2 ++ h2))).drop 0).take 2 = s1
    rw [List.drop_zero, ← hs1]
    exact List.take_left _ _
  · show ((s1 ++ (h1 ++ (s2 ++ h2))).drop 2).take 30 = h1
    rw [hd2, ← hh1]
    exact List.take_left _ _
  · show ((s1 ++ (h1 ++ (s2 ++ h2))).drop 32).take 2 = s2
    rw [hd32, ← hs2]
    exact List.take_left _ _
  · show ((s1 ++ (h1 ++ (s2 ++ h2))).drop 34).take 30 = h2
    rw [hd34]
    exact List.take_of_length_le (le_of_eq hh2)

theorem encodeBalance_data (mp pp : Bool) (m p : Nat) :
    (encodeBalance mp m pp p).data =
      '0' :: 'x' :: (signFlagNibbles mp ++ (natToHex 30 m ++
        (signFlagNibbles pp ++ natToHex 30 p))) := by
  simp [encodeBalance, List.append_assoc]

/-- C8. For every quadruple of sign flags and magnitudes below `2^120`,
the encoded `Balance` word is `0x` followed by exactly 64 hex nibbles, and
the `parseBalance` decoder recovers the original signed margin and position
values (with the raw word attached): decode after encode is the identity. -/
theorem c8_balance_roundtrip (m p : Nat) (mp pp : Bool)
    (hm : m < 2 ^ 120) (hp : p < 2 ^ 120) :
    ((encodeBalance mp m pp p).data.length = 66 ∧
      (encodeBalance mp m pp p).data.take 2 = ['0', 'x']) ∧
    parseBalance (encodeBalance mp m pp p) =
      .balanceV (some (if mp then (m : Int) else -(m : Int)))
        (some (if pp then (p : Int) else -(p : Int)))
        (encodeBalance mp m pp p) := by
  have h230 : (2 : Nat) ^ 120 = 16 ^ 30 := by norm_num
  rw [h230] at hm hp
  have hs1 : (signFlagNibbles mp).length = 2 := by cases mp <;> rfl
  have hs2 : (signFlagNibbles pp).length = 2 := by cases pp <;> rfl
  have hh1 : (natToHex 30 m).length = 30 := length_natToHex 30 m
  have hh2 : (natToHex 30 p).length = 30 := length_natToHex 30 p
  obtain ⟨e1, e2, e3, e4⟩ := packedWord_parts (signFlagNibbles mp)
    (natToHex 30 m) (signFlagNibbles pp) (natToHex 30 p) hs1 hh1 hs2 hh2
  refine ⟨⟨?_, ?_⟩, ?_⟩
  · rw [encodeBalance_data]
    simp [hs1, hs2, hh1, hh2]
  · rw [encodeBalance_data]
    rfl
  · have hsub2 : substrJS (encodeBalance mp m pp p) 2 2 = signFlagNibbles mp := by
      rw [substrJS, encodeBalance_data]; exact e1
    have hsub4 : substrJS (encodeBalance mp m pp p) 4 30 = natToHex 30 m := by
      rw [substrJS, encodeBalance_data]; exact e2
    have hsub34 : substrJS (encodeBalance mp m pp p) 34 2 = signFlagNibbles pp := by
      rw [substrJS, encodeBalance_data]; exact e3
    have hsub36 : substrJS (encodeBalance mp m pp p) 36 30 = natToHex 30 p := by
      rw [substrJS, encodeBalance_data]; exact e4
    have hhex1 := bigNumberOfHexChars_natToHex 30 m (by norm_num) hm
    have hhex2 := bigNumberOfHexChars_natToHex 30 p (by norm_num) hp
    rw [parseBalance, hsub2, hsub4, hsub34, hsub36, hhex1, hhex2]
    cases mp <;> cases pp <;>
      simp [signFlagNibbles, signedMagnitude, bnIsZero, bigNumberOfHexChars,
        hexToNat?, hexDigitsVal, hexVal?]

/-- Witness for C8 at a concrete input: margin `+5`, position `-7`. -/
theorem c8_balance_roundtrip_witness :
    ((encodeBalance true 5 false 7).data.length = 66 ∧
      (encodeBalance true 5 false 7).data.take 2 = ['0', 'x']) ∧
    parseBalance (encodeBalance true 5 false 7) =
      .balanceV (some 5) (some (-7)) (encodeBalance true 5 false 7) :=
  c8_balance_roundtrip 5 7 true false (by norm_num) (by norm_num)

end DydxPerpetual
